import Mathlib

/-!
# Struct initialization demo (`source/main.cpp`)

A state-passing model of the program: `struct Thing` with its implicitly
generated special member functions, and `main` as the list of its statements,
each a transformer of an abstract machine state (object storage as bytes,
pointer variables, the heap event log and the text written to `cout`).

Language rules used (ISO C++11/14, for a class without user-provided
constructors whose member `y` has a default member initializer):
* default-initialization runs the implicit default constructor, which applies
  the default member initializer of `y` and leaves `x` alone;
* value-initialization (`Thing()`, `{}`, `Thing{}`) zero-initializes the
  storage and then runs that constructor;
* copy-initialization runs the implicit member-wise copy constructor.
Platform facts are the ones the expected-output comments of `main.cpp`
document: 32-bit `int`, pointers printed in upper-case hexadecimal, at least
eight digits wide, `__FUNCTION__` expanding to `Thing::test`.
Where an object is stored is the choice of the implementation; the language
only requires storage that no live object occupies. The environment proposes
an address for each object and `place` keeps the proposal when that storage is
free.
-/

namespace PodDemo

/-! ## Data model -/

/-- The record `struct Thing` of main.cpp:54-57, as a typed value. -/
structure Thing where
  x : Int
  y : Int
deriving DecidableEq, Repr

/-- The two data members of `Thing`. -/
inductive Field where
  | x
  | y
deriving DecidableEq, Repr

/-- The automatic `Thing` objects declared in `main`. -/
inductive Var where
  | t1 | t2 | t3 | t5 | t6 | t7 | t10
deriving DecidableEq, Repr

/-- The two `Thing*` variables of `main`. -/
inductive PVar where
  | t8 | t9
deriving DecidableEq, Repr

/-- An object: an automatic variable, or the k-th block handed out by `new`. -/
inductive Obj where
  | stack (v : Var)
  | heap (k : Nat)
deriving DecidableEq, Repr

/-- An operand that denotes a `Thing`: `t` or `*p`. -/
inductive Place where
  | var (v : Var)
  | deref (p : PVar)
deriving DecidableEq, Repr

/-- Raw storage: a list of byte values. -/
abbrev Bytes := List Nat

/-- Value of `sizeof(int)`. -/
def sizeofInt : Nat := 4

/-- Value of `sizeof(Thing)`: two `int` members, no padding. -/
def sizeofThing : Nat := 2 * sizeofInt

/-- Byte offset of a member inside a `Thing`. -/
def Field.offset : Field → Nat
  | .x => 0
  | .y => sizeofInt

/-- The bytes a member occupies (its bit pattern). -/
def fieldBytes (bs : Bytes) (f : Field) : Bytes :=
  (bs.drop f.offset).take sizeofInt

/-- Read four bytes as a little-endian two-complement `int`. -/
def decodeInt (w : Bytes) : Int :=
  let u := w.getD 0 0 % 256 + 256 * (w.getD 1 0 % 256)
    + 65536 * (w.getD 2 0 % 256) + 16777216 * (w.getD 3 0 % 256)
  if u < 2147483648 then (u : Int) else (u : Int) - 4294967296

/-- The four bytes of an `int` value (wrapped to 32 bits). -/
def encodeInt (v : Int) : Bytes :=
  let u := (v % 4294967296).toNat
  [u % 256, u / 256 % 256, u / 65536 % 256, u / 16777216 % 256]

/-- Member read `obj.f`. -/
def readField (bs : Bytes) (f : Field) : Int :=
  decodeInt (fieldBytes bs f)

/-- Member write `obj.f = v`: only the bytes of that member change. -/
def writeField (bs : Bytes) (f : Field) (v : Int) : Bytes :=
  bs.take f.offset ++ encodeInt v ++ bs.drop (f.offset + sizeofInt)

/-- The typed view of an object's storage. -/
def Thing.load (bs : Bytes) : Thing :=
  { x := readField bs .x, y := readField bs .y }

/-- Zero-initialization of a `Thing`: every byte of the object becomes zero. -/
def Thing.zeroInitialize (_bs : Bytes) : Bytes :=
  List.replicate sizeofThing 0

/-- The implicit default constructor: `x` has no initializer and is left as it
is, `y` gets its default member initializer `= 10` (main.cpp:55-56). -/
def Thing.defaultCtor (bs : Bytes) : Bytes :=
  writeField bs .y 10

/-- Value-initialization: zero-initialize, then run the implicit default
constructor. -/
def Thing.valueInitialize (bs : Bytes) : Bytes :=
  Thing.defaultCtor (Thing.zeroInitialize bs)

/-- The implicit copy constructor: member-wise copy of `x` and `y`. -/
def Thing.copyCtor (dst src : Bytes) : Bytes :=
  writeField (writeField dst .x (readField src .x)) .y (readField src .y)

/-! ## Text output -/

/-- Decimal digit character. -/
def digitChar : Nat → Char
  | 0 => '0' | 1 => '1' | 2 => '2' | 3 => '3' | 4 => '4'
  | 5 => '5' | 6 => '6' | 7 => '7' | 8 => '8' | _ => '9'

/-- Upper-case hexadecimal digit character. -/
def hexChar : Nat → Char
  | 0 => '0' | 1 => '1' | 2 => '2' | 3 => '3' | 4 => '4'
  | 5 => '5' | 6 => '6' | 7 => '7' | 8 => '8' | 9 => '9'
  | 10 => 'A' | 11 => 'B' | 12 => 'C' | 13 => 'D' | 14 => 'E' | _ => 'F'

/-- Decimal digits of a natural number, most significant first. -/
def showNatAux : Nat → Nat → List Char
  | 0, _ => []
  | fuel + 1, n =>
    if n < 10 then [digitChar n] else showNatAux fuel (n / 10) ++ [digitChar (n % 10)]

/-- Decimal text of a natural number. -/
def showNat (n : Nat) : List Char :=
  showNatAux (n + 1) n

/-- Text that `cout << i` writes for an `int`. -/
def showInt : Int → List Char
  | .ofNat n => showNat n
  | .negSucc n => '-' :: showNat (n + 1)

/-- Hexadecimal digits of a natural number, most significant first. -/
def hexDigits : Nat → Nat → List Char
  | 0, _ => []
  | fuel + 1, n =>
    if n < 16 then [hexChar n] else hexDigits fuel (n / 16) ++ [hexChar (n % 16)]

/-- Text that `cout << p` writes for a pointer: upper-case hexadecimal digits,
padded with zeros to eight digits (the format of the expected output at
main.cpp:93-94); a wider address takes as many digits as it needs. -/
def showPtr (a : Nat) : List Char :=
  List.replicate (8 - (hexDigits (a + 1) a).length) '0' ++ hexDigits (a + 1) a

/-- Value of an upper-case hexadecimal digit character. -/
def hexCharVal (c : Char) : Nat :=
  if c = '1' then 1 else if c = '2' then 2 else if c = '3' then 3
  else if c = '4' then 4 else if c = '5' then 5 else if c = '6' then 6
  else if c = '7' then 7 else if c = '8' then 8 else if c = '9' then 9
  else if c = 'A' then 10 else if c = 'B' then 11 else if c = 'C' then 12
  else if c = 'D' then 13 else if c = 'E' then 14 else if c = 'F' then 15 else 0

/-- Value of a hexadecimal numeral. -/
def hexVal (cs : List Char) : Nat :=
  cs.foldl (fun acc c => acc * 16 + hexCharVal c) 0

/-- Modelled from the spec: the predefined macro `__FUNCTION__`, which the
sources use and do not define; inside `Thing::test` it is the name of the
enclosing function, `Thing::test` in the expected output of main.cpp:74. -/
def FUNCTION : String := "Thing::test"

/-- Split a character stream into its newline-terminated lines; `cur` holds
the current line reversed. An unterminated non-empty tail counts as a line. -/
def linesAux : List Char → List Char → List (List Char)
  | cur, [] => if cur = [] then [] else [cur.reverse]
  | cur, c :: cs => if c = '\n' then cur.reverse :: linesAux [] cs else linesAux (c :: cur) cs

/-- The lines of an output stream. -/
def lines (cs : List Char) : List (List Char) :=
  linesAux [] cs

/-! ## Machine state -/

/-- What a run does not control: the bytes found in storage before an object
is initialized there, and the address the implementation proposes for each
object. -/
structure Env where
  garbage : Obj → Nat → Nat
  addr : Obj → Nat

/-- Allocation events on the free store. -/
inductive HeapEvent where
  | alloc (k : Nat)
  | use (k : Nat)
  | release (k : Nat)
deriving DecidableEq, Repr

/-- Ways a statement can leave defined behaviour. -/
inductive Fault where
  | deadObject
  | wildPointer
  | doubleRelease
  | notHeap
  | outOfBounds
deriving DecidableEq, Repr

/-- Machine state: storage of the live objects, the address of each live
object (latest first), the pointer variables, the allocation counter, the text
written to `cout`, and the heap event log. -/
structure State where
  mem : Obj → Option Bytes
  placed : List (Obj × Nat)
  ptrs : PVar → Option Obj
  nextHeap : Nat
  out : List Char
  log : List HeapEvent

/-- State at entry of `main`: no object, nothing written. -/
def State.init : State :=
  { mem := fun _ => none, placed := [], ptrs := fun _ => none, nextHeap := 0, out := [],
    log := [] }

/-- Where a new object goes, given the addresses of the live objects and the
address the environment proposes: the proposal when its `sizeof(Thing)` bytes
overlap no live object, otherwise the first address above every live object. -/
def place (occupied : List Nat) (hint : Nat) : Nat :=
  if occupied.all (fun a => decide (hint + sizeofThing ≤ a ∨ a + sizeofThing ≤ hint)) then hint
  else occupied.foldl max 0 + sizeofThing

/-- Address of an object in a list of placements. -/
def lookupAddr (o : Obj) : List (Obj × Nat) → Option Nat
  | [] => none
  | (q, a) :: rest => if q = o then some a else lookupAddr o rest

/-- Address of a live object. -/
def State.address (s : State) (o : Obj) : Option Nat :=
  lookupAddr o s.placed

/-- Obtain storage for a new object. -/
def State.settle (s : State) (env : Env) (o : Obj) : State :=
  { s with placed := (o, place (s.placed.map (fun e => e.2)) (env.addr o)) :: s.placed }

/-- Replace the storage of one object; every other object is untouched. -/
def State.store (s : State) (o : Obj) (bs : Option Bytes) : State :=
  { s with mem := fun p => if p = o then bs else s.mem p }

/-- Append text to `cout`. -/
def State.print (s : State) (txt : List Char) : State :=
  { s with out := s.out ++ txt }

/-- The bytes present in the storage an object is about to occupy. -/
def rawStorage (env : Env) (o : Obj) : Bytes :=
  (List.range sizeofThing).map (fun i => env.garbage o i % 256)

/-- A statement: a fallible state transformer. -/
abbrev Step := Env → State → Except Fault State

/-- Evaluate an operand to the live object it denotes, with its bytes. A
dereference of a pointer to a released object is a fault; a dereference of a
heap pointer is logged. -/
def Place.resolve (pl : Place) (s : State) : Except Fault (Obj × Bytes × State) :=
  match pl with
  | .var v =>
    match s.mem (.stack v) with
    | some bs => .ok (.stack v, bs, s)
    | none => .error .deadObject
  | .deref p =>
    match s.ptrs p with
    | none => .error .wildPointer
    | some o =>
      match s.mem o with
      | none => .error .deadObject
      | some bs =>
        match o with
        | .heap k => .ok (o, bs, { s with log := s.log ++ [.use k] })
        | .stack _ => .ok (o, bs, s)

/-! ## Statements -/

/-- Statement `cout << "lit" << endl;`. -/
def coutStr (lit : String) : Step := fun _ s =>
  .ok (s.print (lit.toList ++ ['\n']))

/-- Statement `Thing t;` (default-initialization). -/
def declDefault (v : Var) : Step := fun env s =>
  .ok ((s.settle env (.stack v)).store (.stack v)
    (some (Thing.defaultCtor (rawStorage env (.stack v)))))

/-- Statements `Thing t = Thing();`, `Thing t = {};`, `Thing t{};` and
`Thing t = Thing{};` (value-initialization of `t`). -/
def declValue (v : Var) : Step := fun env s =>
  .ok ((s.settle env (.stack v)).store (.stack v)
    (some (Thing.valueInitialize (rawStorage env (.stack v)))))

/-- Statement `Thing t = src;` (copy-initialization from another variable). -/
def declCopy (v src : Var) : Step := fun env s =>
  match s.mem (.stack src) with
  | none => .error .deadObject
  | some bs =>
    .ok ((s.settle env (.stack v)).store (.stack v)
      (some (Thing.copyCtor (rawStorage env (.stack v)) bs)))

/-- Member function `void Thing::test() const`, called as `pl.test()`: writes
`__FUNCTION__` and `endl` (main.cpp:57). -/
def Thing.test (pl : Place) : Step := fun _ s =>
  match pl.resolve s with
  | .error e => .error e
  | .ok (_, _, s1) => .ok (s1.print (FUNCTION.toList ++ ['\n']))

/-- Statement `cout << pl.f << endl;`. -/
def coutField (pl : Place) (f : Field) : Step := fun _ s =>
  match pl.resolve s with
  | .error e => .error e
  | .ok (_, bs, s1) => .ok (s1.print (showInt (readField bs f) ++ ['\n']))

/-- Statement `cout << &t << endl;`. -/
def coutAddr (v : Var) : Step := fun _ s =>
  match s.address (.stack v) with
  | none => .error .deadObject
  | some a => .ok (s.print (showPtr a ++ ['\n']))

/-- Statement `pl.f = val;`. -/
def assign (pl : Place) (f : Field) (val : Int) : Step := fun _ s =>
  match pl.resolve s with
  | .error e => .error e
  | .ok (o, bs, s1) => .ok (s1.store o (some (writeField bs f val)))

/-- Allocate the next heap block for a `new` expression and bind `p` to it. -/
def allocate (env : Env) (p : PVar) (bs : Bytes) (s : State) : State :=
  { mem := fun q => if q = Obj.heap s.nextHeap then some bs else s.mem q
    placed := (s.settle env (.heap s.nextHeap)).placed
    ptrs := fun q => if q = p then some (Obj.heap s.nextHeap) else s.ptrs q
    nextHeap := s.nextHeap + 1
    out := s.out
    log := s.log ++ [.alloc s.nextHeap] }

/-- Statement `Thing* p = new Thing;` (default-initialized heap object). -/
def newDefault (p : PVar) : Step := fun env s =>
  .ok (allocate env p (Thing.defaultCtor (rawStorage env (.heap s.nextHeap))) s)

/-- Statement `Thing* p = new Thing();` (value-initialized heap object). -/
def newValue (p : PVar) : Step := fun env s =>
  .ok (allocate env p (Thing.valueInitialize (rawStorage env (.heap s.nextHeap))) s)

/-- Statement `delete p;`. The destructor of `Thing` is implicit and trivial:
nothing is printed; the storage of the block is free again. Releasing a block
that is not live is a fault. -/
def delete (p : PVar) : Step := fun _ s =>
  match s.ptrs p with
  | none => .error .wildPointer
  | some (.stack _) => .error .notHeap
  | some (.heap k) =>
    match s.mem (.heap k) with
    | none => .error .doubleRelease
    | some _ =>
      .ok { (s.store (.heap k) none) with
        placed := s.placed.filter (fun e => decide (e.1 ≠ Obj.heap k))
        log := s.log ++ [.release k] }

/-- Library function `memset(&t, ch, count)`: the first `count` bytes of the
object become `(unsigned char) ch`. Writing past the object is a fault. -/
def memset (v : Var) (ch : Int) (count : Nat) : Step := fun _ s =>
  match s.mem (.stack v) with
  | none => .error .deadObject
  | some bs =>
    if count ≤ bs.length then
      .ok (s.store (.stack v) (some (List.replicate count (ch % 256).toNat ++ bs.drop count)))
    else .error .outOfBounds

/-- The statements of `main` (main.cpp:69-131), in order. -/
def main : List Step :=
  [ coutStr "\nTest stack allocation and initialization: ",              -- 71
    declDefault .t1,                                                     -- 72
    declValue .t2,                                                       -- 73
    Thing.test (.var .t1),                                               -- 74
    coutField (.var .t1) .x,                                             -- 75
    coutField (.var .t2) .x,                                             -- 76
    Thing.test (.var .t2),                                               -- 78
    coutStr "\nTest alternative POD initialization using \x7b\x7d: ",    -- 80
    coutStr "\nNOTE: uncomment the 'int y = 10' in the struct to test more code herein.", -- 81
    declValue .t3,                                                       -- 82
    coutField (.var .t3) .x,                                             -- 83
    declValue .t5,                                                       -- 87
    declValue .t6,                                                       -- 88
    coutField (.var .t5) .y,                                             -- 89
    coutStr "\nTest copying: ",                                          -- 91
    declCopy .t7 .t2,                                                    -- 92
    coutAddr .t2,                                                        -- 93
    coutAddr .t7,                                                        -- 94
    assign (.var .t7) .x 10,                                             -- 95
    coutField (.var .t2) .x,                                             -- 96
    coutStr "\nTest heap allocation: ",                                  -- 98
    newDefault .t8,                                                      -- 99
    newValue .t9,                                                        -- 100
    Thing.test (.deref .t8),                                             -- 101
    Thing.test (.deref .t9),                                             -- 102
    coutField (.deref .t8) .x,                                           -- 103
    coutField (.deref .t9) .x,                                           -- 104
    delete .t8,                                                          -- 105
    delete .t9,                                                          -- 106
    coutStr "\nTest 'crazy' (but old-school) way to set memory (generally, avoid): ", -- 118
    declDefault .t10,                                                    -- 126
    coutField (.var .t10) .x,                                            -- 127
    memset .t10 0 sizeofThing,                                           -- 128
    coutField (.var .t10) .x ]                                           -- 129

/-- Run a sequence of statements; the first fault stops the run. -/
def run (env : Env) : List Step → State → Except Fault State
  | [], s => .ok s
  | st :: rest, s =>
    match st env s with
    | .ok s1 => run env rest s1
    | .error e => .error e

/-- The state after the first `k` statements of `main`. -/
def stateAfter (env : Env) (k : Nat) : Except Fault State :=
  run env (main.take k) State.init

/-- The bytes of the object `pl` denotes after the first `k` statements of
`main` (nothing when the run faulted or the object is not live). -/
def bytesAfter (env : Env) (k : Nat) (pl : Place) : Option Bytes :=
  match stateAfter env k with
  | .ok s =>
    match pl.resolve s with
    | .ok (_, bs, _) => some bs
    | .error _ => none
  | .error _ => none

/-- Member `pl.f` after the first `k` statements of `main`. -/
def fieldAfter (env : Env) (k : Nat) (pl : Place) (f : Field) : Option Int :=
  (bytesAfter env k pl).map (fun bs => readField bs f)

/-- Address of object `o` after the first `k` statements of `main`. -/
def addrAfter (env : Env) (k : Nat) (o : Obj) : Option Nat :=
  match stateAfter env k with
  | .ok s => s.address o
  | .error _ => none

/-- The text written to `cout` by the first `k` statements of `main`. -/
def outAfter (env : Env) (k : Nat) : Option (List Char) :=
  match stateAfter env k with
  | .ok s => some s.out
  | .error _ => none

/-- The lines written to `cout` by a complete run of `main`. -/
def outputLines (env : Env) : Option (List (List Char)) :=
  match stateAfter env main.length with
  | .ok s => some (lines s.out)
  | .error _ => none

/-- An environment as on the documented platform (expected output of
main.cpp:75-127): fresh stack storage filled with `0xCC`, fresh heap storage
with `0xCD`, `t2` at `0045F8A4` and `t7` at `0045F864`. -/
def Env.sample : Env :=
  { garbage := fun o _ =>
      match o with
      | .stack _ => 204
      | .heap _ => 205
    addr := fun o =>
      match o with
      | .stack v => 4585572 + 64 * (match v with
          | .t7 => 0 | .t2 => 1 | .t1 => 2 | .t3 => 3 | .t5 => 4 | .t6 => 5 | .t10 => 6)
      | .heap k => 8388608 + 64 * k }

/-- An environment that proposes address 0 for every object. -/
def Env.crowded : Env :=
  { garbage := fun _ _ => 0, addr := fun _ => 0 }

/-- Address of `t1` in a run of `main`. -/
def addrT1 (env : Env) : Nat :=
  place [] (env.addr (.stack .t1))

/-- Address of `t2` in a run of `main`. -/
def addrT2 (env : Env) : Nat :=
  place [addrT1 env] (env.addr (.stack .t2))

/-- Address of `t3` in a run of `main`. -/
def addrT3 (env : Env) : Nat :=
  place [addrT2 env, addrT1 env] (env.addr (.stack .t3))

/-- Address of `t5` in a run of `main`. -/
def addrT5 (env : Env) : Nat :=
  place [addrT3 env, addrT2 env, addrT1 env] (env.addr (.stack .t5))

/-- Address of `t6` in a run of `main`. -/
def addrT6 (env : Env) : Nat :=
  place [addrT5 env, addrT3 env, addrT2 env, addrT1 env] (env.addr (.stack .t6))

/-- Address of `t7` in a run of `main`. -/
def addrT7 (env : Env) : Nat :=
  place [addrT6 env, addrT5 env, addrT3 env, addrT2 env, addrT1 env] (env.addr (.stack .t7))

/-- The value an indeterminate `x` reads as: whatever the storage held. -/
def garbageX (env : Env) (o : Obj) : Int :=
  readField (rawStorage env o) .x

/-- Join lines, terminating each with a newline. -/
def unlines : List (List Char) → List Char
  | [] => []
  | l :: ls => l ++ '\n' :: unlines ls

/-- The "POD" column of the expected-output comments of main.cpp:71-129, with
the three indeterminate values and the two addresses taken from the run. -/
def podOutput (env : Env) : List (List Char) :=
  [ [],
    "Test stack allocation and initialization: ".toList,
    "Thing::test".toList,
    showInt (garbageX env (.stack .t1)),
    "0".toList,
    "Thing::test".toList,
    [],
    "Test alternative POD initialization using \x7b\x7d: ".toList,
    [],
    "NOTE: uncomment the 'int y = 10' in the struct to test more code herein.".toList,
    "0".toList,
    "10".toList,
    [],
    "Test copying: ".toList,
    showPtr (addrT2 env),
    showPtr (addrT7 env),
    "0".toList,
    [],
    "Test heap allocation: ".toList,
    "Thing::test".toList,
    "Thing::test".toList,
    showInt (garbageX env (.heap 0)),
    "0".toList,
    [],
    "Test 'crazy' (but old-school) way to set memory (generally, avoid): ".toList,
    showInt (garbageX env (.stack .t10)),
    "0".toList ]

/-- Positions (from 0) of the lines that print an indeterminate `x`:
`t1.x`, `t8->x` and the first `t10.x`. -/
def indeterminateLines : List Nat := [3, 21, 25]

/-- Positions (from 0) of the lines that print an address: `&t2` and `&t7`. -/
def addressLines : List Nat := [14, 15]

/-- The text of `main`, statement by statement, as it is appended to `cout`,
with each printed member still as the read the statement performs. -/
def rawChunks (env : Env) : List (List Char) :=
  [ "\nTest stack allocation and initialization: ".toList ++ ['\n'],
    FUNCTION.toList ++ ['\n'],
    showInt (readField (Thing.defaultCtor (rawStorage env (.stack .t1))) .x) ++ ['\n'],
    showInt (readField (Thing.valueInitialize (rawStorage env (.stack .t2))) .x) ++ ['\n'],
    FUNCTION.toList ++ ['\n'],
    "\nTest alternative POD initialization using \x7b\x7d: ".toList ++ ['\n'],
    "\nNOTE: uncomment the 'int y = 10' in the struct to test more code herein.".toList ++ ['\n'],
    showInt (readField (Thing.valueInitialize (rawStorage env (.stack .t3))) .x) ++ ['\n'],
    showInt (readField (Thing.valueInitialize (rawStorage env (.stack .t5))) .y) ++ ['\n'],
    "\nTest copying: ".toList ++ ['\n'],
    showPtr (addrT2 env) ++ ['\n'],
    showPtr (addrT7 env) ++ ['\n'],
    showInt (readField (Thing.valueInitialize (rawStorage env (.stack .t2))) .x) ++ ['\n'],
    "\nTest heap allocation: ".toList ++ ['\n'],
    FUNCTION.toList ++ ['\n'],
    FUNCTION.toList ++ ['\n'],
    showInt (readField (Thing.defaultCtor (rawStorage env (.heap 0))) .x) ++ ['\n'],
    showInt (readField (Thing.valueInitialize (rawStorage env (.heap 1))) .x) ++ ['\n'],
    "\nTest 'crazy' (but old-school) way to set memory (generally, avoid): ".toList ++ ['\n'],
    showInt (readField (Thing.defaultCtor (rawStorage env (.stack .t10))) .x) ++ ['\n'],
    showInt (readField (List.replicate sizeofThing ((0 : Int) % 256).toNat
      ++ (Thing.defaultCtor (rawStorage env (.stack .t10))).drop sizeofThing) .x) ++ ['\n'] ]

/-- A heap event log is disciplined: a block is allocated while not live, used
and released only while live, and no block is live at the end. The first
argument is the list of live blocks. -/
def heapDiscipline : List Nat → List HeapEvent → Bool
  | live, [] => live.isEmpty
  | live, .alloc k :: es => !live.contains k && heapDiscipline (k :: live) es
  | live, .use k :: es => live.contains k && heapDiscipline live es
  | live, .release k :: es => live.contains k && heapDiscipline (live.erase k) es

/-! ## Lemmas on text -/

theorem linesAux_line (a : List Char) (h : '\n' ∉ a) (cur rest : List Char) :
    linesAux cur (a ++ '\n' :: rest) = (cur.reverse ++ a) :: linesAux [] rest := by
  induction a generalizing cur with
  | nil => simp [linesAux]
  | cons c cs ih =>
    have hc : c ≠ '\n' := fun e => h (by simp [e])
    have hcs : '\n' ∉ cs := fun e => h (by simp [e])
    simp [linesAux, hc, ih hcs]

theorem lines_unlines (ls : List (List Char)) (h : ∀ l ∈ ls, '\n' ∉ l) :
    lines (unlines ls) = ls := by
  induction ls with
  | nil => simp [lines, unlines, linesAux]
  | cons l ls ih =>
    have hl : '\n' ∉ l := h l (by simp)
    have hls : ∀ m ∈ ls, '\n' ∉ m := fun m hm => h m (by simp [hm])
    have := ih hls
    simp only [lines] at this ⊢
    simp [unlines, linesAux_line l hl, this]

theorem digitChar_ne_newline (d : Nat) : digitChar d ≠ '\n' := by
  unfold digitChar
  split <;> decide

theorem hexChar_ne_newline (d : Nat) : hexChar d ≠ '\n' := by
  unfold hexChar
  split <;> decide

theorem showNatAux_no_newline (fuel n : Nat) : '\n' ∉ showNatAux fuel n := by
  induction fuel generalizing n with
  | zero => simp [showNatAux]
  | succ k ih =>
    unfold showNatAux
    split
    · simpa using (digitChar_ne_newline n).symm
    · simp only [List.mem_append, List.mem_singleton, not_or]
      exact ⟨ih _, (digitChar_ne_newline _).symm⟩

theorem showInt_no_newline (i : Int) : '\n' ∉ showInt i := by
  cases i with
  | ofNat n => exact showNatAux_no_newline _ _
  | negSucc n =>
    simp only [showInt, List.mem_cons, not_or]
    exact ⟨by decide, showNatAux_no_newline _ _⟩

theorem hexDigits_no_newline (fuel n : Nat) : '\n' ∉ hexDigits fuel n := by
  induction fuel generalizing n with
  | zero => simp [hexDigits]
  | succ k ih =>
    unfold hexDigits
    split
    · simpa using (hexChar_ne_newline n).symm
    · simp only [List.mem_append, List.mem_singleton, not_or]
      exact ⟨ih _, (hexChar_ne_newline _).symm⟩

theorem showPtr_no_newline (a : Nat) : '\n' ∉ showPtr a := by
  simp only [showPtr, List.mem_append, List.mem_replicate, not_or, not_and]
  exact ⟨fun _ => by decide, hexDigits_no_newline _ _⟩

theorem hexCharVal_hexChar : ∀ d : Fin 16, hexCharVal (hexChar d) = d := by decide

theorem hexVal_snoc (cs : List Char) (c : Char) :
    hexVal (cs ++ [c]) = hexVal cs * 16 + hexCharVal c := by
  simp [hexVal, List.foldl_append]

theorem hexVal_hexDigits (fuel n : Nat) (h : n < fuel) : hexVal (hexDigits fuel n) = n := by
  induction fuel generalizing n with
  | zero => omega
  | succ k ih =>
    unfold hexDigits
    split
    · rename_i hn
      have := hexCharVal_hexChar ⟨n, hn⟩
      simpa [hexVal] using this
    · have hm := hexCharVal_hexChar ⟨n % 16, Nat.mod_lt _ (by decide)⟩
      simp only at hm
      rw [hexVal_snoc, ih (n / 16) (by omega), hm]
      omega

theorem hexVal_zeros (k : Nat) (cs : List Char) :
    hexVal (List.replicate k '0' ++ cs) = hexVal cs := by
  induction k with
  | zero => simp
  | succ k ih =>
    have h0 : hexCharVal '0' = 0 := by decide
    simp only [hexVal, List.replicate_succ, List.cons_append, List.foldl_cons, h0] at ih ⊢
    exact ih

theorem hexVal_showPtr (a : Nat) : hexVal (showPtr a) = a := by
  unfold showPtr
  rw [hexVal_zeros, hexVal_hexDigits _ _ (Nat.lt_succ_self a)]

theorem showPtr_inj (a b : Nat) (h : showPtr a = showPtr b) : a = b := by
  have := congrArg hexVal h
  rwa [hexVal_showPtr, hexVal_showPtr] at this

theorem le_foldl_max (l : List Nat) (init a : Nat) (h : a ∈ l ∨ a ≤ init) :
    a ≤ l.foldl max init := by
  induction l generalizing init with
  | nil =>
    rcases h with h | h
    · simp at h
    · simpa using h
  | cons b bs ih =>
    simp only [List.foldl_cons]
    apply ih
    rcases h with h | h
    · rcases List.mem_cons.mp h with h | h
      · right; rw [h]; exact Nat.le_max_right _ _
      · left; exact h
    · right; exact Nat.le_trans h (Nat.le_max_left _ _)

theorem place_free (occupied : List Nat) (hint a : Nat) (h : a ∈ occupied) :
    place occupied hint + sizeofThing ≤ a ∨ a + sizeofThing ≤ place occupied hint := by
  unfold place
  split
  · rename_i hall
    have := List.all_eq_true.mp hall a h
    simpa using this
  · right
    have := le_foldl_max occupied 0 a (Or.inl h)
    omega

theorem place_ne (occupied : List Nat) (hint a : Nat) (h : a ∈ occupied) :
    place occupied hint ≠ a := by
  have := place_free occupied hint a h
  unfold sizeofThing sizeofInt at this
  omega

theorem podOutput_no_newline (env : Env) : ∀ l ∈ podOutput env, '\n' ∉ l := by
  intro l hl
  simp only [podOutput, List.mem_cons, List.mem_singleton, List.not_mem_nil, or_false] at hl
  rcases hl with h | h | h | h | h | h | h | h | h | h | h | h | h | h | h | h | h | h | h | h
    | h | h | h | h | h | h | h <;> subst h <;>
    first
      | with_reducible exact showInt_no_newline _
      | with_reducible exact showPtr_no_newline _
      | decide

/-! ## Lemmas on storage -/

theorem rawStorage_eq (env : Env) (o : Obj) :
    rawStorage env o =
      [env.garbage o 0 % 256, env.garbage o 1 % 256, env.garbage o 2 % 256,
       env.garbage o 3 % 256, env.garbage o 4 % 256, env.garbage o 5 % 256,
       env.garbage o 6 % 256, env.garbage o 7 % 256] := rfl

theorem encodeInt_ten : encodeInt 10 = [10, 0, 0, 0] := by decide

theorem defaultCtor_raw (env : Env) (o : Obj) :
    Thing.defaultCtor (rawStorage env o) =
      [env.garbage o 0 % 256, env.garbage o 1 % 256, env.garbage o 2 % 256,
       env.garbage o 3 % 256, 10, 0, 0, 0] := by
  rw [rawStorage_eq]
  simp only [Thing.defaultCtor, writeField, encodeInt_ten]
  rfl

theorem valueInitialize_eq (bs : Bytes) :
    Thing.valueInitialize bs = [0, 0, 0, 0, 10, 0, 0, 0] := by
  simp only [Thing.valueInitialize, Thing.zeroInitialize, Thing.defaultCtor, writeField,
    encodeInt_ten]
  rfl

theorem valueInitialize_x (bs : Bytes) : readField (Thing.valueInitialize bs) .x = 0 := by
  rw [valueInitialize_eq]; decide

theorem valueInitialize_y (bs : Bytes) : readField (Thing.valueInitialize bs) .y = 10 := by
  rw [valueInitialize_eq]; decide

theorem defaultCtor_raw_xbytes (env : Env) (o : Obj) :
    fieldBytes (Thing.defaultCtor (rawStorage env o)) .x = fieldBytes (rawStorage env o) .x := by
  rw [defaultCtor_raw, rawStorage_eq]; rfl

theorem defaultCtor_raw_ybytes (env : Env) (o : Obj) :
    fieldBytes (Thing.defaultCtor (rawStorage env o)) .y = [10, 0, 0, 0] := by
  rw [defaultCtor_raw]; rfl

theorem defaultCtor_raw_x (env : Env) (o : Obj) :
    readField (Thing.defaultCtor (rawStorage env o)) .x = garbageX env o := by
  unfold garbageX readField
  rw [defaultCtor_raw_xbytes]

theorem defaultCtor_raw_y (env : Env) (o : Obj) :
    readField (Thing.defaultCtor (rawStorage env o)) .y = 10 := by
  unfold readField
  rw [defaultCtor_raw_ybytes]; decide

theorem memset_zero_raw (env : Env) (o : Obj) :
    List.replicate sizeofThing ((0 : Int) % 256).toNat
      ++ (Thing.defaultCtor (rawStorage env o)).drop sizeofThing = List.replicate sizeofThing 0 := by
  rw [defaultCtor_raw]; rfl

theorem zeroes_field (f : Field) : readField (List.replicate sizeofThing 0) f = 0 := by
  cases f <;> decide

theorem copy_of_value (env : Env) (o : Obj) (bs : Bytes) :
    Thing.copyCtor (rawStorage env o) (Thing.valueInitialize bs) = [0, 0, 0, 0, 10, 0, 0, 0] := by
  rw [valueInitialize_eq, rawStorage_eq]
  have hx : readField [0, 0, 0, 0, 10, 0, 0, 0] .x = 0 := by decide
  have hy : readField [0, 0, 0, 0, 10, 0, 0, 0] .y = 10 := by decide
  have h0 : encodeInt 0 = [0, 0, 0, 0] := by decide
  simp only [Thing.copyCtor, hx, hy, writeField, encodeInt_ten, h0]
  rfl

theorem write_x_ten : writeField [0, 0, 0, 0, 10, 0, 0, 0] .x 10 = [10, 0, 0, 0, 10, 0, 0, 0] := by
  decide

/-! ## Symbolic execution of `main` -/

theorem main_length : main.length = 34 := rfl

theorem stateAfter_full (env : Env) (k : Nat) (hk : 34 ≤ k) :
    stateAfter env k = stateAfter env 34 := by
  unfold stateAfter
  rw [List.take_of_length_le (by rw [main_length]; exact hk),
    List.take_of_length_le (by rw [main_length])]

theorem bytesAfter_full (env : Env) (k : Nat) (pl : Place) (hk : 34 ≤ k) :
    bytesAfter env k pl = bytesAfter env 34 pl := by
  unfold bytesAfter
  rw [stateAfter_full env k hk]

theorem out_rawChunks (env : Env) :
    outAfter env 34 = some ((rawChunks env).foldl (fun a c => a ++ c) []) := rfl

theorem rawChunks_unlines (env : Env) :
    (rawChunks env).foldl (fun a c => a ++ c) [] = unlines (podOutput env) := by
  have h1 : "\nTest stack allocation and initialization: ".toList
      = '\n' :: "Test stack allocation and initialization: ".toList := rfl
  have h2 : "\nTest alternative POD initialization using \x7b\x7d: ".toList
      = '\n' :: "Test alternative POD initialization using \x7b\x7d: ".toList := rfl
  have h3 : "\nNOTE: uncomment the 'int y = 10' in the struct to test more code herein.".toList
      = '\n' :: "NOTE: uncomment the 'int y = 10' in the struct to test more code herein.".toList
        := rfl
  have h4 : "\nTest copying: ".toList = '\n' :: "Test copying: ".toList := rfl
  have h5 : "\nTest heap allocation: ".toList = '\n' :: "Test heap allocation: ".toList := rfl
  have h6 : "\nTest 'crazy' (but old-school) way to set memory (generally, avoid): ".toList
      = '\n' :: "Test 'crazy' (but old-school) way to set memory (generally, avoid): ".toList
        := rfl
  have z : showInt 0 = "0".toList := by decide
  have t : showInt 10 = "10".toList := by decide
  have f : FUNCTION.toList = "Thing::test".toList := rfl
  simp only [rawChunks, podOutput, unlines, List.foldl, h1, h2, h3, h4, h5, h6, f,
    valueInitialize_x, valueInitialize_y, defaultCtor_raw_x, memset_zero_raw, zeroes_field,
    z, t, List.append_assoc, List.cons_append, List.nil_append]

theorem main_out (env : Env) : outAfter env 34 = some (unlines (podOutput env)) := by
  rw [out_rawChunks, rawChunks_unlines]

theorem outputLines_eq (env : Env) : outputLines env = some (podOutput env) := by
  have h := main_out env
  unfold outAfter at h
  unfold outputLines
  rw [main_length]
  split at h
  · simp only [Option.some.injEq] at h
    simp only [h, lines_unlines _ (podOutput_no_newline env)]
  · exact absurd h (by simp)

/-- On the sample environment the model writes the "POD" column of the
expected-output comments of main.cpp, character for character. -/
theorem sample_output :
    outputLines Env.sample = some
      [ "".toList,
        "Test stack allocation and initialization: ".toList,
        "Thing::test".toList,
        "-858993460".toList,
        "0".toList,
        "Thing::test".toList,
        "".toList,
        "Test alternative POD initialization using \x7b\x7d: ".toList,
        "".toList,
        "NOTE: uncomment the 'int y = 10' in the struct to test more code herein.".toList,
        "0".toList,
        "10".toList,
        "".toList,
        "Test copying: ".toList,
        "0045F8A4".toList,
        "0045F864".toList,
        "0".toList,
        "".toList,
        "Test heap allocation: ".toList,
        "Thing::test".toList,
        "Thing::test".toList,
        "-842150451".toList,
        "0".toList,
        "".toList,
        "Test 'crazy' (but old-school) way to set memory (generally, avoid): ".toList,
        "-858993460".toList,
        "0".toList ] := by
  rw [outputLines_eq]
  decide

/-- Writing an `int` and reading it back gives the value. -/
theorem decode_encode (v : Int) (h1 : -2147483648 ≤ v) (h2 : v < 2147483648) :
    decodeInt (encodeInt v) = v := by
  simp only [decodeInt, encodeInt, List.getD_cons_zero, List.getD_cons_succ]
  split <;> omega

/-- The discipline check rejects a leak, a double release and a use after
release. -/
theorem heapDiscipline_rejects :
    heapDiscipline [] [.alloc 0] = false ∧
    heapDiscipline [] [.alloc 0, .release 0, .release 0] = false ∧
    heapDiscipline [] [.alloc 0, .release 0, .use 0] = false := by
  decide

/-- Even when the environment proposes one address for every object, `t2`
and `t7` are printed at different addresses. -/
theorem crowded_addresses :
    ∃ ls, outputLines Env.crowded = some ls ∧ ls[14]? = some "00000008".toList ∧
      ls[15]? = some "00000028".toList := by
  refine ⟨_, outputLines_eq _, ?_, ?_⟩ <;> decide

/-- An address wider than 32 bits is printed in full. -/
theorem showPtr_wide : showPtr 140721827811492 = "7FFC5A8F10A4".toList := by
  decide

/-! ## Storage of each object along the run -/

theorem bytes_t2 (env : Env) (k : Nat) (hk : 3 ≤ k) :
    bytesAfter env k (.var .t2) = some (Thing.valueInitialize (rawStorage env (.stack .t2))) := by
  rcases Nat.lt_or_ge k 34 with h | h
  · interval_cases k <;> rfl
  · rw [bytesAfter_full env k _ h]; rfl

theorem bytes_t3 (env : Env) (k : Nat) (hk : 10 ≤ k) :
    bytesAfter env k (.var .t3) = some (Thing.valueInitialize (rawStorage env (.stack .t3))) := by
  rcases Nat.lt_or_ge k 34 with h | h
  · interval_cases k <;> rfl
  · rw [bytesAfter_full env k _ h]; rfl

theorem bytes_t5 (env : Env) (k : Nat) (hk : 12 ≤ k) :
    bytesAfter env k (.var .t5) = some (Thing.valueInitialize (rawStorage env (.stack .t5))) := by
  rcases Nat.lt_or_ge k 34 with h | h
  · interval_cases k <;> rfl
  · rw [bytesAfter_full env k _ h]; rfl

theorem bytes_t6 (env : Env) (k : Nat) (hk : 13 ≤ k) :
    bytesAfter env k (.var .t6) = some (Thing.valueInitialize (rawStorage env (.stack .t6))) := by
  rcases Nat.lt_or_ge k 34 with h | h
  · interval_cases k <;> rfl
  · rw [bytesAfter_full env k _ h]; rfl

theorem bytes_t9 (env : Env) (k : Nat) (hk : 23 ≤ k) (hk2 : k ≤ 28) :
    bytesAfter env k (.deref .t9) = some (Thing.valueInitialize (rawStorage env (.heap 1))) := by
  interval_cases k <;> rfl

theorem field_of_bytes (env : Env) (k : Nat) (pl : Place) (f : Field) (bs : Bytes)
    (h : bytesAfter env k pl = some bs) : fieldAfter env k pl f = some (readField bs f) := by
  simp [fieldAfter, h]

theorem bytes_t7_copied (env : Env) (k : Nat) (hk : 16 ≤ k) (hk2 : k ≤ 18) :
    bytesAfter env k (.var .t7) = some (Thing.copyCtor (rawStorage env (.stack .t7))
      (Thing.valueInitialize (rawStorage env (.stack .t2)))) := by
  interval_cases k <;> rfl

theorem bytes_t7_assigned (env : Env) :
    bytesAfter env 19 (.var .t7) = some (writeField (Thing.copyCtor (rawStorage env (.stack .t7))
      (Thing.valueInitialize (rawStorage env (.stack .t2)))) .x 10) := rfl

theorem bytes_t1 (env : Env) :
    bytesAfter env 2 (.var .t1) = some (Thing.defaultCtor (rawStorage env (.stack .t1))) := rfl

theorem bytes_t8 (env : Env) :
    bytesAfter env 22 (.deref .t8) = some (Thing.defaultCtor (rawStorage env (.heap 0))) := rfl

theorem bytes_t10_declared (env : Env) (k : Nat) (hk : 31 ≤ k) (hk2 : k ≤ 32) :
    bytesAfter env k (.var .t10) = some (Thing.defaultCtor (rawStorage env (.stack .t10))) := by
  interval_cases k <;> rfl

theorem bytes_t10_filled (env : Env) (k : Nat) (hk : 33 ≤ k) :
    bytesAfter env k (.var .t10) = some (List.replicate sizeofThing 0) := by
  have h33 : bytesAfter env 33 (.var .t10) = some (List.replicate sizeofThing 0) :=
    (rfl : bytesAfter env 33 (.var .t10) = some (List.replicate sizeofThing ((0 : Int) % 256).toNat
      ++ (Thing.defaultCtor (rawStorage env (.stack .t10))).drop sizeofThing)).trans
      (congrArg some (memset_zero_raw env _))
  have h34 : bytesAfter env 34 (.var .t10) = some (List.replicate sizeofThing 0) :=
    (rfl : bytesAfter env 34 (.var .t10) = some (List.replicate sizeofThing ((0 : Int) % 256).toNat
      ++ (Thing.defaultCtor (rawStorage env (.stack .t10))).drop sizeofThing)).trans
      (congrArg some (memset_zero_raw env _))
  rcases Nat.lt_or_ge k 34 with h | h
  · interval_cases k; exact h33
  · rw [bytesAfter_full env k _ h]; exact h34

theorem declCopy_ok (env : Env) (s : State) (a b : Var) (bs : Bytes)
    (ha : s.mem (.stack a) = some bs) :
    declCopy b a env s
      = .ok ((s.settle env (.stack b)).store (.stack b)
          (some (Thing.copyCtor (rawStorage env (.stack b)) bs))) := by
  simp [declCopy, ha]

theorem assign_var_ok (env : Env) (s : State) (v : Var) (f : Field) (val : Int) (bs : Bytes)
    (h : s.mem (.stack v) = some bs) :
    assign (.var v) f val env s = .ok (s.store (.stack v) (some (writeField bs f val))) := by
  simp [assign, Place.resolve, h]

theorem store_other (s : State) (o q : Obj) (bs : Option Bytes) (h : q ≠ o) :
    (s.store o bs).mem q = s.mem q := by
  simp [State.store, h]

theorem store_same (s : State) (o : Obj) (bs : Option Bytes) :
    (s.store o bs).mem o = bs := by
  simp [State.store]

theorem resolve_ok (s s1 : State) (pl : Place) (o : Obj) (bs : Bytes)
    (h : pl.resolve s = .ok (o, bs, s1)) :
    s1.out = s.out ∧ s1.mem = s.mem ∧ s1.ptrs = s.ptrs ∧ s.mem o = some bs := by
  cases pl with
  | var v =>
    simp only [Place.resolve] at h
    split at h
    · rename_i cs hcs
      simp only [Except.ok.injEq, Prod.mk.injEq] at h
      obtain ⟨rfl, rfl, rfl⟩ := h
      exact ⟨rfl, rfl, rfl, hcs⟩
    · simp at h
  | deref p =>
    simp only [Place.resolve] at h
    split at h
    · simp at h
    · rename_i q hq
      split at h
      · simp at h
      · rename_i cs hcs
        split at h
        · simp only [Except.ok.injEq, Prod.mk.injEq] at h
          obtain ⟨rfl, rfl, rfl⟩ := h
          exact ⟨rfl, rfl, rfl, hcs⟩
        · simp only [Except.ok.injEq, Prod.mk.injEq] at h
          obtain ⟨rfl, rfl, rfl⟩ := h
          exact ⟨rfl, rfl, rfl, hcs⟩

theorem resolve_stored (s s1 : State) (pl : Place) (o : Obj) (bs cs : Bytes)
    (h : pl.resolve s = .ok (o, bs, s1)) :
    ∃ s2, pl.resolve (s.store o (some cs)) = .ok (o, cs, s2) ∧ s2.out = s.out ∧
      s2.mem o = some cs := by
  cases pl with
  | var v =>
    cases hm : s.mem (.stack v) with
    | none => simp [Place.resolve, hm] at h
    | some b =>
      simp only [Place.resolve, hm, Except.ok.injEq, Prod.mk.injEq] at h
      obtain ⟨rfl, rfl, rfl⟩ := h
      exact ⟨s.store (.stack v) (some cs), by simp [Place.resolve, State.store], rfl,
        by simp [State.store]⟩
  | deref p =>
    cases hq : s.ptrs p with
    | none => simp [Place.resolve, hq] at h
    | some q =>
      cases hm : s.mem q with
      | none => simp [Place.resolve, hq, hm] at h
      | some b =>
        cases q with
        | heap k =>
          simp only [Place.resolve, hq, hm, Except.ok.injEq, Prod.mk.injEq] at h
          obtain ⟨rfl, rfl, rfl⟩ := h
          exact ⟨{ (s.store (.heap k) (some cs)) with log := s.log ++ [.use k] },
            by simp [Place.resolve, State.store, hq], rfl, by simp [State.store]⟩
        | stack v =>
          simp only [Place.resolve, hq, hm, Except.ok.injEq, Prod.mk.injEq] at h
          obtain ⟨rfl, rfl, rfl⟩ := h
          exact ⟨s.store (.stack v) (some cs), by simp [Place.resolve, State.store, hq], rfl,
            by simp [State.store]⟩

theorem test_of_resolve (env : Env) (s s1 : State) (pl : Place) (o : Obj) (bs : Bytes)
    (h : pl.resolve s = .ok (o, bs, s1)) :
    Thing.test pl env s = .ok (s1.print (FUNCTION.toList ++ ['\n'])) := by
  simp [Thing.test, h]

theorem decodeInt_range (w : Bytes) :
    -2147483648 ≤ decodeInt w ∧ decodeInt w < 2147483648 := by
  simp only [decodeInt]
  split <;> omega

theorem copy_reads (dst src : Bytes) (f : Field) :
    readField (Thing.copyCtor dst src) f = readField src f := by
  have hx := decodeInt_range (fieldBytes src .x)
  have hy := decodeInt_range (fieldBytes src .y)
  have ex := decode_encode (readField src .x) hx.1 hx.2
  have ey := decode_encode (readField src .y) hy.1 hy.2
  have key : ∀ vx vy : Int, ∀ rest : Bytes,
      fieldBytes (encodeInt vx ++ encodeInt vy ++ rest) .x = encodeInt vx ∧
      fieldBytes (encodeInt vx ++ encodeInt vy ++ rest) .y = encodeInt vy := by
    intro vx vy rest
    simp only [encodeInt]
    exact ⟨rfl, rfl⟩
  have shape : Thing.copyCtor dst src = encodeInt (readField src .x)
      ++ encodeInt (readField src .y)
      ++ List.drop 8 (encodeInt (readField src .x) ++ List.drop 4 dst) := by
    simp only [Thing.copyCtor, writeField, encodeInt]
    rfl
  rw [shape]
  cases f
  · show decodeInt (fieldBytes _ .x) = _
    rw [(key _ _ _).1, ex]
  · show decodeInt (fieldBytes _ .y) = _
    rw [(key _ _ _).2, ey]

theorem lookupAddr_mem (o : Obj) (l : List (Obj × Nat)) (a : Nat)
    (h : lookupAddr o l = some a) : a ∈ l.map (fun e => e.2) := by
  induction l with
  | nil => simp [lookupAddr] at h
  | cons e rest ih =>
    obtain ⟨q, c⟩ := e
    simp only [lookupAddr] at h
    split at h
    · simp only [Option.some.injEq] at h
      simp [h]
    · simp [ih h]

theorem addr_t2 (env : Env) (k : Nat) (hk : 3 ≤ k) :
    addrAfter env k (.stack .t2) = some (addrT2 env) := by
  rcases Nat.lt_or_ge k 34 with h | h
  · interval_cases k <;> rfl
  · unfold addrAfter
    rw [stateAfter_full env k h]; rfl

theorem addr_t7 (env : Env) (k : Nat) (hk : 16 ≤ k) :
    addrAfter env k (.stack .t7) = some (addrT7 env) := by
  rcases Nat.lt_or_ge k 34 with h | h
  · interval_cases k <;> rfl
  · unfold addrAfter
    rw [stateAfter_full env k h]; rfl

theorem addrT7_free (env : Env) :
    addrT2 env + sizeofThing ≤ addrT7 env ∨ addrT7 env + sizeofThing ≤ addrT2 env := by
  have := place_free [addrT6 env, addrT5 env, addrT3 env, addrT2 env, addrT1 env]
    (env.addr (.stack .t7)) (addrT2 env) (by simp)
  rcases this with h | h
  · exact Or.inr h
  · exact Or.inl h

/-! ## The claims -/

/-- C2: every value-initialized `Thing` of `main` has `y == 10`, the default
member initializer of `y`, for every content of the storage and from its
initialization on; the line printed for `t5.y` (line 11 of the output) is "10". -/
theorem value_init_y_default (env : Env) (k : Nat) :
    (3 ≤ k → fieldAfter env k (.var .t2) .y = some 10) ∧
    (10 ≤ k → fieldAfter env k (.var .t3) .y = some 10) ∧
    (12 ≤ k → fieldAfter env k (.var .t5) .y = some 10) ∧
    (13 ≤ k → fieldAfter env k (.var .t6) .y = some 10) ∧
    (23 ≤ k → k ≤ 28 → fieldAfter env k (.deref .t9) .y = some 10) ∧
    ∃ ls, outputLines env = some ls ∧ ls[11]? = some "10".toList := by
  refine ⟨fun h => ?_, fun h => ?_, fun h => ?_, fun h => ?_, fun h h2 => ?_,
    podOutput env, outputLines_eq env, rfl⟩
  · rw [field_of_bytes env k _ _ _ (bytes_t2 env k h), valueInitialize_y]
  · rw [field_of_bytes env k _ _ _ (bytes_t3 env k h), valueInitialize_y]
  · rw [field_of_bytes env k _ _ _ (bytes_t5 env k h), valueInitialize_y]
  · rw [field_of_bytes env k _ _ _ (bytes_t6 env k h), valueInitialize_y]
  · rw [field_of_bytes env k _ _ _ (bytes_t9 env k h h2), valueInitialize_y]

/-- Witness of C2 on the sample environment, after 25 statements. -/
theorem value_init_y_default_witness :
    fieldAfter Env.sample 25 (.var .t2) .y = some 10 ∧
    fieldAfter Env.sample 25 (.var .t3) .y = some 10 ∧
    fieldAfter Env.sample 25 (.var .t5) .y = some 10 ∧
    fieldAfter Env.sample 25 (.var .t6) .y = some 10 ∧
    fieldAfter Env.sample 25 (.deref .t9) .y = some 10 :=
  have h := value_init_y_default Env.sample 25
  ⟨h.1 (by decide), h.2.1 (by decide), h.2.2.1 (by decide), h.2.2.2.1 (by decide),
    h.2.2.2.2.1 (by decide) (by decide)⟩

/-- C3: in `main`, after `Thing t7 = t2;` and `t7.x = 10;` (statement 19) the
original is unchanged (`t2.x == 0`, `t2.y == 10`, the storage of `t2` is what
it was before the copy, line 16 of the output is "0") while `t7.x == 10`. In
general, for two distinct variables `a` and `b` and any state where `a` is
live: after `Thing b = a;`, writing any value to any member of `b` leaves the
storage of `a` unchanged, and writing to `a` leaves the storage of `b`
unchanged. -/
theorem copy_is_independent (env : Env) (s : State) (a b : Var) (f : Field) (v : Int)
    (bs : Bytes) (hab : a ≠ b) (ha : s.mem (.stack a) = some bs) :
    (fieldAfter env 19 (.var .t2) .x = some 0 ∧ fieldAfter env 19 (.var .t2) .y = some 10 ∧
      fieldAfter env 19 (.var .t7) .x = some 10 ∧ fieldAfter env 19 (.var .t7) .y = some 10 ∧
      bytesAfter env 19 (.var .t2) = bytesAfter env 15 (.var .t2) ∧
      ∃ ls, outputLines env = some ls ∧ ls[16]? = some "0".toList) ∧
    ∃ s1 s2 s3 cs, declCopy b a env s = .ok s1 ∧
      assign (.var b) f v env s1 = .ok s2 ∧ assign (.var a) f v env s1 = .ok s3 ∧
      s1.mem (.stack a) = some bs ∧ s1.mem (.stack b) = some cs ∧
      s2.mem (.stack a) = some bs ∧ s3.mem (.stack b) = some cs := by
  refine ⟨⟨?_, ?_, ?_, ?_, ?_, podOutput env, outputLines_eq env, rfl⟩, ?_⟩
  · rw [field_of_bytes env 19 _ _ _ (bytes_t2 env 19 (by decide)), valueInitialize_x]
  · rw [field_of_bytes env 19 _ _ _ (bytes_t2 env 19 (by decide)), valueInitialize_y]
  · rw [field_of_bytes env 19 _ _ _ (bytes_t7_assigned env), copy_of_value, write_x_ten]
    decide
  · rw [field_of_bytes env 19 _ _ _ (bytes_t7_assigned env), copy_of_value, write_x_ten]
    decide
  · rw [bytes_t2 env 19 (by decide), bytes_t2 env 15 (by decide)]
  · have hba : Obj.stack b ≠ Obj.stack a := fun e => hab (Obj.stack.inj e).symm
    have hab2 : Obj.stack a ≠ Obj.stack b := fun e => hab (Obj.stack.inj e)
    have h1a : ((s.settle env (.stack b)).store (.stack b)
        (some (Thing.copyCtor (rawStorage env (.stack b)) bs))).mem (.stack a) = some bs := by
      rw [store_other _ _ _ _ hab2]; exact ha
    have h1b : ((s.settle env (.stack b)).store (.stack b)
        (some (Thing.copyCtor (rawStorage env (.stack b)) bs))).mem (.stack b)
          = some (Thing.copyCtor (rawStorage env (.stack b)) bs) := store_same _ _ _
    refine ⟨_, _, _, _, declCopy_ok env s a b bs ha, assign_var_ok env _ b f v _ h1b,
      assign_var_ok env _ a f v _ h1a, h1a, h1b, ?_, ?_⟩
    · rw [store_other _ _ _ _ hab2, h1a]
    · rw [store_other _ _ _ _ hba, h1b]

/-- Witness of C3: in the state of the sample run after 15 statements, copy
`t2` into `t7` and write 10 to `x`. -/
theorem copy_is_independent_witness :
    ∃ s, stateAfter Env.sample 15 = .ok s ∧
      ∃ s1 s2 s3 cs, declCopy .t7 .t2 Env.sample s = .ok s1 ∧
        assign (.var .t7) .x 10 Env.sample s1 = .ok s2 ∧
        assign (.var .t2) .x 10 Env.sample s1 = .ok s3 ∧
        s1.mem (.stack .t2) = some [0, 0, 0, 0, 10, 0, 0, 0] ∧ s1.mem (.stack .t7) = some cs ∧
        s2.mem (.stack .t2) = some [0, 0, 0, 0, 10, 0, 0, 0] ∧ s3.mem (.stack .t7) = some cs :=
  ⟨_, rfl, (copy_is_independent Env.sample _ .t2 .t7 .x 10 [0, 0, 0, 0, 10, 0, 0, 0]
    (by decide) (by decide)).2⟩

/-- C4: `Thing t7 = t2;` (statement 16) makes a second object. In every run
of `main` the storage of `t7` is disjoint from that of `t2`, so the two
addresses differ and so do the two printed address lines (lines 14 and 15 of
the output); the members of `t7` equal those of `t2` at the copy, `x == 0` and
`y == 10`, until `t7.x` is assigned by statement 19. In general, for two
distinct variables and any state where `a` is live with bytes `bs` at address
`pa`: after `Thing b = a;` every member of `b` reads as that member of `a`,
`a` is unchanged at `pa`, and `b` is in storage disjoint from `a`. -/
theorem copy_distinct_equal (env : Env) (s : State) (a b : Var) (bs : Bytes) (pa : Nat)
    (hab : a ≠ b) (ha : s.mem (.stack a) = some bs) (hp : s.address (.stack a) = some pa) :
    (Obj.stack .t2 ≠ Obj.stack .t7 ∧
      ∃ p2 p7, addrAfter env 16 (.stack .t2) = some p2 ∧ addrAfter env 16 (.stack .t7) = some p7 ∧
        addrAfter env 18 (.stack .t2) = some p2 ∧ addrAfter env 18 (.stack .t7) = some p7 ∧
        (p2 + sizeofThing ≤ p7 ∨ p7 + sizeofThing ≤ p2) ∧ p2 ≠ p7 ∧
        ∃ ls l2 l7, outputLines env = some ls ∧ ls[14]? = some l2 ∧ ls[15]? = some l7 ∧
          l2 = showPtr p2 ∧ l7 = showPtr p7 ∧ l2 ≠ l7) ∧
    (fieldAfter env 16 (.var .t7) .x = some 0 ∧ fieldAfter env 16 (.var .t7) .y = some 10 ∧
      fieldAfter env 18 (.var .t7) .x = some 0 ∧ fieldAfter env 18 (.var .t7) .y = some 10 ∧
      (bytesAfter env 16 (.var .t7)).map Thing.load = some { x := 0, y := 10 } ∧
      (∀ f, fieldAfter env 16 (.var .t7) f = fieldAfter env 15 (.var .t2) f) ∧
      (∀ f, fieldAfter env 16 (.var .t7) f = fieldAfter env 16 (.var .t2) f)) ∧
    ∃ s1 cs pb, declCopy b a env s = .ok s1 ∧
      s1.mem (.stack b) = some cs ∧ s1.mem (.stack a) = some bs ∧
      (∀ f, readField cs f = readField bs f) ∧
      s1.address (.stack a) = some pa ∧ s1.address (.stack b) = some pb ∧
      (pa + sizeofThing ≤ pb ∨ pb + sizeofThing ≤ pa) ∧ pa ≠ pb := by
  have hsep := addrT7_free env
  have hne : addrT2 env ≠ addrT7 env := by
    unfold sizeofThing sizeofInt at hsep
    omega
  have hx : ∀ k, 16 ≤ k → k ≤ 18 → fieldAfter env k (.var .t7) .x = some 0 := by
    intro k hk hk2
    rw [field_of_bytes env k _ _ _ (bytes_t7_copied env k hk hk2), copy_of_value]
    decide
  have hy : ∀ k, 16 ≤ k → k ≤ 18 → fieldAfter env k (.var .t7) .y = some 10 := by
    intro k hk hk2
    rw [field_of_bytes env k _ _ _ (bytes_t7_copied env k hk hk2), copy_of_value]
    decide
  have hf : ∀ k f, 15 ≤ k → k ≤ 16 →
      fieldAfter env 16 (.var .t7) f = fieldAfter env k (.var .t2) f := by
    intro k f hk hk2
    rw [field_of_bytes env 16 _ _ _ (bytes_t7_copied env 16 (by decide) (by decide)),
      field_of_bytes env k _ _ _ (bytes_t2 env k (by omega)), copy_reads]
  refine ⟨⟨by decide, addrT2 env, addrT7 env, addr_t2 env 16 (by decide),
      addr_t7 env 16 (by decide), addr_t2 env 18 (by decide), addr_t7 env 18 (by decide),
      hsep, hne, podOutput env, _, _, outputLines_eq env, rfl, rfl, rfl, rfl, ?_⟩,
    ⟨hx 16 (by decide) (by decide), hy 16 (by decide) (by decide),
      hx 18 (by decide) (by decide), hy 18 (by decide) (by decide), ?_,
      fun f => hf 15 f (by decide) (by decide), fun f => hf 16 f (by decide) (by decide)⟩, ?_⟩
  · intro e
    exact hne (showPtr_inj _ _ e)
  · rw [bytes_t7_copied env 16 (by decide) (by decide), copy_of_value]
    decide
  · have hab2 : Obj.stack a ≠ Obj.stack b := fun e => hab (Obj.stack.inj e)
    have hba : ¬ (Obj.stack b = Obj.stack a) := fun e => hab2 e.symm
    have hmem : pa ∈ s.placed.map (fun e => e.2) := lookupAddr_mem _ _ _ hp
    have hfree := place_free (s.placed.map (fun e => e.2)) (env.addr (.stack b)) pa hmem
    refine ⟨_, _, place (s.placed.map (fun e => e.2)) (env.addr (.stack b)),
      declCopy_ok env s a b bs ha, store_same _ _ _, ?_, fun f => copy_reads _ _ f, ?_, ?_, ?_, ?_⟩
    · rw [store_other _ _ _ _ hab2]; exact ha
    · show lookupAddr (.stack a) ((Obj.stack b, _) :: s.placed) = some pa
      simp only [lookupAddr, hba, if_false]
      exact hp
    · show lookupAddr (.stack b) ((Obj.stack b, _) :: s.placed) = some _
      simp [lookupAddr]
    · rcases hfree with h | h
      · exact Or.inr h
      · exact Or.inl h
    · unfold sizeofThing sizeofInt at hfree
      omega

/-- Witness of C4: in the state of the sample run after 15 statements, copy
`t1`, whose `x` holds `0xCC` bytes, into `t7`. -/
theorem copy_distinct_equal_witness :
    ∃ s, stateAfter Env.sample 15 = .ok s ∧
      ∃ s1 cs pb, declCopy .t7 .t1 Env.sample s = .ok s1 ∧
        s1.mem (.stack .t7) = some cs ∧
        s1.mem (.stack .t1) = some [204, 204, 204, 204, 10, 0, 0, 0] ∧
        (∀ f, readField cs f = readField [204, 204, 204, 204, 10, 0, 0, 0] f) ∧
        s1.address (.stack .t1) = some 4585700 ∧ s1.address (.stack .t7) = some pb ∧
        (4585700 + sizeofThing ≤ pb ∨ pb + sizeofThing ≤ 4585700) ∧ 4585700 ≠ pb :=
  ⟨_, rfl, (copy_distinct_equal Env.sample _ .t1 .t7 [204, 204, 204, 204, 10, 0, 0, 0] 4585700
    (by decide) (by decide) (by decide)).2.2⟩

/-- C5: for every content of the storage of `t10`, after
`memset(&t10, 0, sizeof(Thing))` (statement 33) every byte of `t10` is zero, so
`t10.x == 0` and `t10.y == 0`, although `y` held its default 10 and `x` the
indeterminate value just before; the second line printed for `t10.x` (line 26
of the output) is "0". -/
theorem memset_zeroes_thing (env : Env) :
    bytesAfter env 33 (.var .t10) = some (List.replicate sizeofThing 0) ∧
    fieldAfter env 33 (.var .t10) .x = some 0 ∧ fieldAfter env 33 (.var .t10) .y = some 0 ∧
    fieldAfter env 34 (.var .t10) .x = some 0 ∧ fieldAfter env 34 (.var .t10) .y = some 0 ∧
    fieldAfter env 32 (.var .t10) .x = some (garbageX env (.stack .t10)) ∧
    fieldAfter env 32 (.var .t10) .y = some 10 ∧
    ∃ ls, outputLines env = some ls ∧
      ls[25]? = some (showInt (garbageX env (.stack .t10))) ∧ ls[26]? = some "0".toList := by
  refine ⟨bytes_t10_filled env 33 (by decide), ?_, ?_, ?_, ?_, ?_, ?_,
    podOutput env, outputLines_eq env, rfl, rfl⟩
  · rw [field_of_bytes env 33 _ _ _ (bytes_t10_filled env 33 (by decide)), zeroes_field]
  · rw [field_of_bytes env 33 _ _ _ (bytes_t10_filled env 33 (by decide)), zeroes_field]
  · rw [field_of_bytes env 34 _ _ _ (bytes_t10_filled env 34 (by decide)), zeroes_field]
  · rw [field_of_bytes env 34 _ _ _ (bytes_t10_filled env 34 (by decide)), zeroes_field]
  · rw [field_of_bytes env 32 _ _ _ (bytes_t10_declared env 32 (by decide) (by decide)),
      defaultCtor_raw_x]
  · rw [field_of_bytes env 32 _ _ _ (bytes_t10_declared env 32 (by decide) (by decide)),
      defaultCtor_raw_y]

/-- C6, counterexample: with storage that held `0xCC` in every byte, the bit
pattern of `t1.y` after `Thing t1;` (statement 2) is that of 10, not what the
storage held. -/
theorem default_init_changes_y :
    fieldBytes (rawStorage Env.sample (.stack .t1)) .y = [204, 204, 204, 204] ∧
    (bytesAfter Env.sample 2 (.var .t1)).map (fun bs => fieldBytes bs .y)
      = some [10, 0, 0, 0] ∧
    (bytesAfter Env.sample 2 (.var .t1)).map (fun bs => fieldBytes bs .y)
      ≠ some (fieldBytes (rawStorage Env.sample (.stack .t1)) .y) := by
  refine ⟨by decide, by decide, by decide⟩

/-- C6, amended: default-initialization of a `Thing` (`Thing t;` and
`new Thing`) leaves the bit pattern of `x` as it was in the storage and sets
`y` to its default 10; no other object and no output changes. So it is for
`t1`, `*t8` and `t10` in `main`. -/
theorem default_init_effect (env : Env) (s : State) (v : Var) (p : PVar) :
    (∃ s1 bs, declDefault v env s = .ok s1 ∧ s1.mem (.stack v) = some bs ∧
      fieldBytes bs .x = fieldBytes (rawStorage env (.stack v)) .x ∧
      fieldBytes bs .y = encodeInt 10 ∧ readField bs .y = 10 ∧
      (∀ o, o ≠ .stack v → s1.mem o = s.mem o) ∧ s1.out = s.out) ∧
    (∃ s1 bs, newDefault p env s = .ok s1 ∧ s1.ptrs p = some (.heap s.nextHeap) ∧
      s1.mem (.heap s.nextHeap) = some bs ∧
      fieldBytes bs .x = fieldBytes (rawStorage env (.heap s.nextHeap)) .x ∧
      fieldBytes bs .y = encodeInt 10 ∧ readField bs .y = 10 ∧
      (∀ o, o ≠ .heap s.nextHeap → s1.mem o = s.mem o) ∧ s1.out = s.out) ∧
    (bytesAfter env 2 (.var .t1)).map (fun bs => fieldBytes bs .x)
      = some (fieldBytes (rawStorage env (.stack .t1)) .x) ∧
    (bytesAfter env 22 (.deref .t8)).map (fun bs => fieldBytes bs .x)
      = some (fieldBytes (rawStorage env (.heap 0)) .x) ∧
    (bytesAfter env 31 (.var .t10)).map (fun bs => fieldBytes bs .x)
      = some (fieldBytes (rawStorage env (.stack .t10)) .x) ∧
    fieldAfter env 2 (.var .t1) .y = some 10 ∧ fieldAfter env 22 (.deref .t8) .y = some 10 ∧
    fieldAfter env 31 (.var .t10) .y = some 10 := by
  refine ⟨⟨_, _, rfl, store_same _ _ _, defaultCtor_raw_xbytes env _, ?_,
      defaultCtor_raw_y env _, fun o ho => store_other _ _ _ _ ho, rfl⟩,
    ⟨_, _, rfl, ?_, ?_, defaultCtor_raw_xbytes env _, ?_, defaultCtor_raw_y env _, ?_, rfl⟩,
    ?_, ?_, ?_, ?_, ?_, ?_⟩
  · rw [defaultCtor_raw_ybytes, encodeInt_ten]
  · simp [allocate]
  · simp [allocate]
  · rw [defaultCtor_raw_ybytes, encodeInt_ten]
  · intro o ho
    simp [allocate, ho]
  · rw [bytes_t1, Option.map_some', defaultCtor_raw_xbytes]
  · rw [bytes_t8, Option.map_some', defaultCtor_raw_xbytes]
  · rw [bytes_t10_declared env 31 (by decide) (by decide), Option.map_some',
      defaultCtor_raw_xbytes]
  · rw [field_of_bytes env 2 _ _ _ (bytes_t1 env), defaultCtor_raw_y]
  · rw [field_of_bytes env 22 _ _ _ (bytes_t8 env), defaultCtor_raw_y]
  · rw [field_of_bytes env 31 _ _ _ (bytes_t10_declared env 31 (by decide) (by decide)),
      defaultCtor_raw_y]

/-- C7: any two runs of `main`, whatever the contents of uninitialized storage
and the addresses of the objects, write 27 lines each and agree on every line
except the three that print an indeterminate `x` (lines 3, 21, 25: `t1.x`,
`t8->x`, the first `t10.x`) and the two that print an address (lines 14, 15:
`&t2`, `&t7`). -/
theorem output_agrees_off_indeterminate (e1 e2 : Env) :
    ∃ l1 l2, outputLines e1 = some l1 ∧ outputLines e2 = some l2 ∧
      l1.length = 27 ∧ l2.length = 27 ∧
      (∀ i, i ∉ indeterminateLines → i ∉ addressLines → l1[i]? = l2[i]?) ∧
      l1[3]? = some (showInt (garbageX e1 (.stack .t1))) ∧
      l1[21]? = some (showInt (garbageX e1 (.heap 0))) ∧
      l1[25]? = some (showInt (garbageX e1 (.stack .t10))) ∧
      l1[14]? = (addrAfter e1 34 (.stack .t2)).map showPtr ∧
      l1[15]? = (addrAfter e1 34 (.stack .t7)).map showPtr := by
  refine ⟨podOutput e1, podOutput e2, outputLines_eq e1, outputLines_eq e2, rfl, rfl, ?_,
    rfl, rfl, rfl, ?_, ?_⟩
  rotate_left
  · rw [addr_t2 e1 34 (by decide)]; rfl
  · rw [addr_t7 e1 34 (by decide)]; rfl
  intro i hi ha
  have key : ∀ e : Env, ∀ j, j ∉ indeterminateLines → j ∉ addressLines →
      (podOutput e)[j]? = (podOutput Env.sample)[j]? := by
    intro e j hj hb
    simp only [indeterminateLines, addressLines, List.mem_cons, List.mem_singleton,
      List.not_mem_nil, or_false, not_or] at hj hb
    rcases Nat.lt_or_ge j 27 with h | h
    · interval_cases j <;> first | (exfalso; omega) | simp [podOutput]
    · rw [List.getElem?_eq_none (by simpa [podOutput] using h),
        List.getElem?_eq_none (by simpa [podOutput] using h)]
  rw [key e1 i hi ha, key e2 i hi ha]

/-- C8: `main` runs to its end without a fault (releasing a block twice or
using a released block is a fault); `t8` and `t9` point to the two blocks
`main` allocated; each block is allocated once, used only before its release
and released once; no heap block is live at the end; the two `delete`
statements (28 and 29) write nothing to `cout`. -/
theorem heap_released_once (env : Env) :
    ∃ s, stateAfter env 34 = .ok s ∧
      s.log = [.alloc 0, .alloc 1, .use 0, .use 1, .use 0, .use 1, .release 0, .release 1] ∧
      heapDiscipline [] s.log = true ∧
      s.log.count (.release 0) = 1 ∧ s.log.count (.release 1) = 1 ∧
      s.ptrs .t8 = some (.heap 0) ∧ s.ptrs .t9 = some (.heap 1) ∧ s.nextHeap = 2 ∧
      (∀ k, s.mem (.heap k) = none) ∧
      outAfter env 29 = outAfter env 27 ∧
      delete .t8 env s = .error .doubleRelease ∧ delete .t9 env s = .error .doubleRelease ∧
      coutField (.deref .t8) .x env s = .error .deadObject ∧
      coutField (.deref .t9) .x env s = .error .deadObject := by
  refine ⟨_, rfl, rfl, rfl, rfl, rfl, rfl, rfl, rfl, fun k => ?_, rfl, rfl, rfl, rfl, rfl⟩
  match k with
  | 0 => rfl
  | 1 => rfl
  | n + 2 => rfl

/-- C10: called on any operand that denotes a live `Thing`, `Thing::test`
succeeds, appends exactly one line, the name of the function, to `cout`, and
changes neither the storage nor the pointers; the result is the same whatever
bytes the receiver holds. The four calls in `main` write the same line (lines
2, 5, 19 and 20 of the output). -/
theorem test_prints_name (env : Env) (s s1 : State) (pl : Place) (o : Obj) (bs : Bytes)
    (h : pl.resolve s = .ok (o, bs, s1)) :
    (∃ s2, Thing.test pl env s = .ok s2 ∧ s2.out = s.out ++ (FUNCTION.toList ++ ['\n']) ∧
      s2.mem = s.mem ∧ s2.ptrs = s.ptrs) ∧
    lines (FUNCTION.toList ++ ['\n']) = [FUNCTION.toList] ∧
    "test".toList <:+ FUNCTION.toList ∧
    (∀ cs, ∃ s3, Thing.test pl env (s.store o (some cs)) = .ok s3 ∧
      s3.out = s.out ++ (FUNCTION.toList ++ ['\n']) ∧ s3.mem o = some cs) ∧
    ∃ ls, outputLines env = some ls ∧ ls[2]? = some FUNCTION.toList ∧
      ls[5]? = some FUNCTION.toList ∧ ls[19]? = some FUNCTION.toList ∧
      ls[20]? = some FUNCTION.toList := by
  obtain ⟨ho, hm, hp, -⟩ := resolve_ok s s1 pl o bs h
  refine ⟨⟨_, test_of_resolve env s s1 pl o bs h, ?_, hm, hp⟩, by decide, by decide, ?_,
    podOutput env, outputLines_eq env, rfl, rfl, rfl, rfl⟩
  · simp [State.print, ho]
  · intro cs
    obtain ⟨s2, h2, h2o, h2m⟩ := resolve_stored s s1 pl o bs cs h
    refine ⟨_, test_of_resolve env _ s2 pl o cs h2, ?_, ?_⟩
    · simp [State.print, h2o, State.store]
    · simpa [State.print] using h2m

/-- Witness of C10: the call `t1.test()` in a state where `t1` holds an
indeterminate `x` (`0xCC` bytes) and nothing was written yet. -/
theorem test_prints_name_witness :
    ∃ s2, Thing.test (.var .t1) Env.sample
        (State.init.store (.stack .t1) (some [204, 204, 204, 204, 10, 0, 0, 0])) = .ok s2 ∧
      s2.out = "Thing::test\n".toList ∧
      s2.mem (.stack .t1) = some [204, 204, 204, 204, 10, 0, 0, 0] :=
  have h := (test_prints_name Env.sample
    (State.init.store (.stack .t1) (some [204, 204, 204, 204, 10, 0, 0, 0])) _ (.var .t1)
    (.stack .t1) [204, 204, 204, 204, 10, 0, 0, 0] rfl).1
  Exists.elim h fun s2 h2 => ⟨s2, h2.1, h2.2.1, by rw [h2.2.2.1]; rfl⟩

end PodDemo
